import Mathlib

/-!
Verification of the thread-affine task executor and endpoint-forwarding layer
of `mojo/public/cpp/bindings` (bind_task_runner_unittest.cc excerpt).

Part 1 embeds `TestTaskRunner` directly from the source: a FIFO queue of
tasks, a quit flag, `PostDelayedTask`, `PostNonNestableDelayedTask`, `Run`,
`RunOneTask`, `Quit`, plus `IntegerSenderImpl::Echo`.

A `Task`, when run, may post further tasks onto the same runner's queue (the
source runs each task with the lock released, so `PostDelayedTask` re-entry
appends to the queue) and may call `Quit()` on the owning runner.  The model
is the closed single-runner system: all posts during a drain come from the
running tasks themselves; cross-thread posting is serialized by the queue
lock, so "posted before" means "earlier in the queue".

`Run()` loops forever waiting on `task_ready_` when the queue is empty, so
the embedding is fuel-indexed and returns an outcome: `returned` (the
source's `return` after a quitting task), `blocked` (empty queue, parked in
`task_ready_.Wait()` with nobody left to post), or `fuelOut` (model fuel
exhausted - an artifact, the source would keep draining).
-/

namespace TestTaskRunner

inductive Task : Type where
  | mk (ident : Nat) (posts : List Task) (callsQuit : Bool) : Task

def Task.ident : Task → Nat
  | .mk i _ _ => i

def Task.posts : Task → List Task
  | .mk _ p _ => p

def Task.callsQuit : Task → Bool
  | .mk _ _ q => q

/-- The mutable state of a `TestTaskRunner`: the task queue `tasks_` and the
`quit_called_` flag. -/
structure RunnerState where
  tasks : List Task
  quit_called : Bool

/-- How an invocation of `Run()` (or of the model's drain loop) ends. -/
inductive RunOutcome where
  | returned (s : RunnerState)
  | blocked (s : RunnerState)
  | fuelOut (s : RunnerState)

def RunOutcome.state : RunOutcome → RunnerState
  | .returned s => s
  | .blocked s => s
  | .fuelOut s => s

/-- `TestTaskRunner::PostDelayedTask` (source lines 38-47): takes the lock,
pushes the task onto `tasks_`, signals `task_ready_`, and returns `true`.
The `delay` argument is ignored entirely. `some` = the call returns. -/
def PostDelayedTask (s : RunnerState) (t : Task) (delay : Nat) :
    Option (Bool × RunnerState) :=
  some (true, ⟨s.tasks ++ [t], s.quit_called⟩)

/-- `TestTaskRunner::PostNonNestableDelayedTask` (source lines 31-36):
`NOTREACHED()` - a fatal programming-error check; the call never succeeds
in enqueuing anything. `none` = the fatal check fires. -/
def PostNonNestableDelayedTask (s : RunnerState) (t : Task) (delay : Nat) :
    Option (Bool × RunnerState) :=
  none

/-- `TestTaskRunner::Quit` (source lines 76-79): sets `quit_called_`. -/
def Quit (s : RunnerState) : RunnerState :=
  ⟨s.tasks, true⟩

/-- The effect of `task.Run()` seen by the runner (source line 66): the
task's re-entrant posts are appended to the queue, and `quit_called_` is set
if the task calls `Quit()`. -/
def runTaskStep (s : RunnerState) (t : Task) : RunnerState :=
  ⟨s.tasks ++ t.posts, s.quit_called || t.callsQuit⟩

/-- The loop of `TestTaskRunner::Run` (source lines 57-73): pop the front
task, run it with the lock released, then `if (quit_called_) return;`;
when the queue empties, park in `task_ready_.Wait()`.  Returns the trace of
tasks run, in order, and the outcome. -/
def runDrain (fuel : Nat) (s : RunnerState) : List Task × RunOutcome :=
  match s.tasks with
  | [] => ([], RunOutcome.blocked s)
  | t :: rest =>
    let s' : RunnerState := ⟨rest ++ t.posts, s.quit_called || t.callsQuit⟩
    if s'.quit_called then
      ([t], RunOutcome.returned s')
    else
      match fuel with
      | 0 => ([t], RunOutcome.fuelOut s')
      | Nat.succ fuel' =>
        let p := runDrain fuel' s'
        (t :: p.1, p.2)

/-- `TestTaskRunner::Run` (source lines 53-74): clears `quit_called_` at
entry (line 55), then drains. -/
def run (fuel : Nat) (s : RunnerState) : List Task × RunOutcome :=
  runDrain fuel ⟨s.tasks, false⟩

/-- `TestTaskRunner::RunOneTask` (source lines 82-101): waits until the
queue is non-empty, pops the front task, runs it with the lock released,
and returns.  `none` = the queue is empty and the call is parked forever in
`task_ready_.Wait()` (closed system: nobody else posts). -/
def runOneTask (s : RunnerState) : Option (Task × RunnerState) :=
  match s.tasks with
  | [] => none
  | t :: rest => some (t, ⟨rest ++ t.posts, s.quit_called || t.callsQuit⟩)

end TestTaskRunner

/-- Observable actions of `IntegerSenderImpl::Echo` (source lines 129-134):
either the reply callback is run directly with a value, or the registered
echo handler is run with the value and the callback. -/
inductive EchoAction where
  | runCallback (value : Int)
  | runEchoHandler (handler : Nat) (value : Int)
deriving DecidableEq

/-- `IntegerSenderImpl::Echo` (source lines 129-134): if `echo_handler_` is
null, run the callback with the value; otherwise run the handler with the
value and the callback.  `echo_handler` is `none` when null, `some h` when a
handler named `h` is set.  The returned list is the sequence of actions Echo
itself performs, synchronously, in order. -/
def Echo (echo_handler : Option Nat) (value : Int) : List EchoAction :=
  match echo_handler with
  | none => [EchoAction.runCallback value]
  | some h => [EchoAction.runEchoHandler h value]

/-- `IntegerSenderImpl::set_echo_handler` (source lines 126-127): replaces
the stored handler. -/
def set_echo_handler (echo_handler : Option Nat) (h : Nat) : Option Nat :=
  some h

/-!
Part 2 - the master/associated endpoint forwarding link and teardown.
The mojo bindings routing code (`AssociatedBinding`, multiplexing router)
is not part of this excerpt; only its test callers are, so this part is
modelled from the spec, faithful to its words, and checked against the
shape the tests pin down (`AssociatedBindTaskRunnerTest.MethodCall`,
`BindingConnectionError`, `PtrConnectionError`).
-/

/-- Modelled from the spec: a forwarding Task queued on the master
endpoint's Executor E_M.  Missing code: the associated-interface routing of
the mojo bindings.  A call issued on the associated endpoint is serialized
by the send step and "arrives at the master endpoint's executor first";
replies travel the same two-hop path. -/
inductive MasterTask where
  | requestArrived (v : Int)
  | replyArrived (v : Int)
deriving DecidableEq

/-- Modelled from the spec: a forwarding Task queued on the associated
endpoint's Executor E_A - the second hop, performing final delivery to the
handler (for requests) or to the pending-call callback (for replies). -/
inductive AssocTask where
  | deliverRequest (v : Int)
  | deliverReply (v : Int)
deriving DecidableEq

/-- Modelled from the spec: the state of a master/associated endpoint pair -
the two Executors' queues, the values delivered to the associated handler
(in order), and the values the reply callback observed (in order). -/
structure PairState where
  masterQ : List MasterTask
  assocQ : List AssocTask
  handlerFired : List Int
  cbFired : List Int
deriving DecidableEq

def initPair : PairState :=
  ⟨[], [], [], []⟩

/-- Modelled from the spec: issuing `Call(v, cb)` on the associated
endpoint.  The send step serializes the call synchronously on the issuing
side and posts the forwarding Task onto the master endpoint's Executor. -/
def issueCall (v : Int) (s : PairState) : PairState :=
  { s with masterQ := s.masterQ ++ [MasterTask.requestArrived v] }

/-- Modelled from the spec: one `RunOneTask()` on the master Executor E_M.
The receive step recognizes the message as belonging to the associated
endpoint and re-posts a second forwarding Task onto E_A.  `none` = the
queue is empty and the call blocks. -/
def runOneMasterTask (s : PairState) : Option PairState :=
  match s.masterQ with
  | [] => none
  | MasterTask.requestArrived v :: rest =>
    some { s with masterQ := rest, assocQ := s.assocQ ++ [AssocTask.deliverRequest v] }
  | MasterTask.replyArrived v :: rest =>
    some { s with masterQ := rest, assocQ := s.assocQ ++ [AssocTask.deliverReply v] }

/-- Modelled from the spec: one `RunOneTask()` on the associated Executor
E_A.  Delivering a request runs the handler; the handler of the verified
scenario echoes the value back (`callback.Run(value)` in the test), whose
reply is again serialized and arrives at the master Executor first.
Delivering a reply runs the pending-call callback. -/
def runOneAssocTask (s : PairState) : Option PairState :=
  match s.assocQ with
  | [] => none
  | AssocTask.deliverRequest v :: rest =>
    some { s with assocQ := rest,
                  handlerFired := s.handlerFired ++ [v],
                  masterQ := s.masterQ ++ [MasterTask.replyArrived v] }
  | AssocTask.deliverReply v :: rest =>
    some { s with assocQ := rest, cbFired := s.cbFired ++ [v] }

/-- Modelled from the spec: one endpoint's teardown-relevant state - its
`closed` flag, the number of connection-error tasks scheduled on its own
Executor but not yet run, and the number of times its connection-error
handler has fired. -/
structure EpState where
  closed : Bool
  pendingError : Nat
  errorFired : Nat
deriving DecidableEq

/-- Modelled from the spec: closing one endpoint.  Idempotent: a first
close sets `closed` and schedules the connection-error handler on the
endpoint's own Executor; a repeated close does nothing. -/
def closeEp (e : EpState) : EpState :=
  if e.closed then e
  else ⟨true, e.pendingError + 1, e.errorFired⟩

/-- Modelled from the spec: draining the endpoint's own Executor, running
every scheduled connection-error task. -/
def drainEp (e : EpState) : EpState :=
  ⟨e.closed, 0, e.errorFired + e.pendingError⟩

/-- Modelled from the spec: once `closed` is true, no further Calls may be
dispatched through the endpoint. -/
def deliverable (e : EpState) : Bool :=
  !e.closed

/-- Modelled from the spec: a master endpoint with its associated children
bound under it. -/
structure ConnState where
  master : EpState
  assocs : List EpState

/-- Modelled from the spec: closing the master's underlying connection
closes the master and every associated endpoint bound under it, each
scheduling its own connection-error handler on its own Executor. -/
def closeMasterConnection (c : ConnState) : ConnState :=
  ⟨closeEp c.master, c.assocs.map closeEp⟩

def modifyAt : List EpState → Nat → (EpState → EpState) → List EpState
  | [], _, _ => []
  | e :: es, 0, f => f e :: es
  | e :: es, Nat.succ i, f => e :: modifyAt es i f

/-- Modelled from the spec: closing the associated endpoint at index `i`
closes only that endpoint; the master and the other associated endpoints
are untouched (asymmetric ownership). -/
def closeAssociated (c : ConnState) (i : Nat) : ConnState :=
  ⟨c.master, modifyAt c.assocs i closeEp⟩

/-- A sample open connection: an open master with two open associated
endpoints, used to instantiate the teardown theorems. -/
def sampleConn : ConnState :=
  ⟨⟨false, 0, 0⟩, [⟨false, 0, 0⟩, ⟨false, 0, 0⟩]⟩

/-!
Theorems.  Helper lemmas first, then one theorem per verified claim.
-/

namespace TestTaskRunner

/-- Helper: one-step unfolding of the drain loop on an empty queue. -/
theorem runDrain_empty (fuel : Nat) (s : RunnerState) (hs : s.tasks = []) :
    runDrain fuel s = ([], RunOutcome.blocked s) := by
  rw [runDrain.eq_def, hs]

/-- Helper: one-step unfolding of the drain loop when the front task sets
the quit flag: the loop returns right after it. -/
theorem runDrain_front_quits (fuel : Nat) (s : RunnerState) (t : Task)
    (rest : List Task) (hs : s.tasks = t :: rest)
    (hq : (s.quit_called || t.callsQuit) = true) :
    runDrain fuel s
      = ([t], RunOutcome.returned ⟨rest ++ t.posts, s.quit_called || t.callsQuit⟩) := by
  rw [runDrain.eq_def, hs]
  simp only [hq, if_true]

/-- Helper: one-step unfolding of the drain loop when the front task does
not set the quit flag and fuel remains. -/
theorem runDrain_front_continues (fuel : Nat) (s : RunnerState) (t : Task)
    (rest : List Task) (hs : s.tasks = t :: rest)
    (hq : (s.quit_called || t.callsQuit) = false) :
    runDrain (fuel + 1) s
      = (t :: (runDrain fuel ⟨rest ++ t.posts, s.quit_called || t.callsQuit⟩).1,
         (runDrain fuel ⟨rest ++ t.posts, s.quit_called || t.callsQuit⟩).2) := by
  conv_lhs => rw [runDrain.eq_def]
  rw [hs]
  simp only [hq, Bool.false_eq_true, if_false]

/-- Helper: one-step unfolding of the drain loop when the front task does
not set the quit flag and fuel is exhausted (model artifact). -/
theorem runDrain_front_fuelOut (s : RunnerState) (t : Task)
    (rest : List Task) (hs : s.tasks = t :: rest)
    (hq : (s.quit_called || t.callsQuit) = false) :
    runDrain 0 s
      = ([t], RunOutcome.fuelOut ⟨rest ++ t.posts, s.quit_called || t.callsQuit⟩) := by
  rw [runDrain.eq_def, hs]
  simp only [hq, Bool.false_eq_true, if_false]

/-- Helper: structural FIFO invariant of the drain loop.  For any starting
state, the trace of executed tasks is a take-prefix of the starting queue
followed only by tasks that entered the queue later (re-entrant posts), the
final queue is the untouched drop-suffix of the starting queue followed by
later arrivals, and a later arrival runs only after the whole starting
queue has run. -/
theorem drain_fifo (fuel : Nat) :
    ∀ s : RunnerState, ∃ k P P',
      k ≤ s.tasks.length ∧
      (runDrain fuel s).1 = s.tasks.take k ++ P ∧
      ((runDrain fuel s).2.state).tasks = s.tasks.drop k ++ P' ∧
      (k < s.tasks.length → P = []) := by
  induction fuel with
  | zero =>
    intro s
    match hs : s.tasks with
    | [] =>
      refine ⟨0, [], [], by simp, ?_, ?_, by simp⟩
      · rw [runDrain_empty 0 s hs]
        simp
      · rw [runDrain_empty 0 s hs]
        simp [RunOutcome.state, hs]
    | t :: rest =>
      by_cases hq : (s.quit_called || t.callsQuit) = true
      · refine ⟨1, [], t.posts, by simp [hs], ?_, ?_, by simp⟩
        · rw [runDrain_front_quits 0 s t rest hs hq]
          simp [hs]
        · rw [runDrain_front_quits 0 s t rest hs hq]
          simp [RunOutcome.state, hs]
      · rw [Bool.not_eq_true] at hq
        refine ⟨1, [], t.posts, by simp [hs], ?_, ?_, by simp⟩
        · rw [runDrain_front_fuelOut s t rest hs hq]
          simp [hs]
        · rw [runDrain_front_fuelOut s t rest hs hq]
          simp [RunOutcome.state, hs]
  | succ fuel ih =>
    intro s
    match hs : s.tasks with
    | [] =>
      refine ⟨0, [], [], by simp, ?_, ?_, by simp⟩
      · rw [runDrain_empty (fuel + 1) s hs]
        simp
      · rw [runDrain_empty (fuel + 1) s hs]
        simp [RunOutcome.state, hs]
    | t :: rest =>
      by_cases hq : (s.quit_called || t.callsQuit) = true
      · refine ⟨1, [], t.posts, by simp [hs], ?_, ?_, by simp⟩
        · rw [runDrain_front_quits (fuel + 1) s t rest hs hq]
          simp [hs]
        · rw [runDrain_front_quits (fuel + 1) s t rest hs hq]
          simp [RunOutcome.state, hs]
      · rw [Bool.not_eq_true] at hq
        obtain ⟨k', P, P', hk', h1, h2, h3⟩ :=
          ih ⟨rest ++ t.posts, s.quit_called || t.callsQuit⟩
        dsimp only at hk' h1 h2 h3
        rw [List.length_append] at hk' h3
        rw [runDrain_front_continues fuel s t rest hs hq]
        by_cases hsplit : k' ≤ rest.length
        · refine ⟨k' + 1, P, t.posts ++ P', by simp [hs]; omega, ?_, ?_, ?_⟩
          · dsimp only
            rw [h1, List.take_append_eq_append_take, Nat.sub_eq_zero_of_le hsplit]
            simp [hs]
          · dsimp only
            rw [h2, List.drop_append_eq_append_drop, Nat.sub_eq_zero_of_le hsplit]
            simp [hs]
          · intro hlt
            apply h3
            simp at hlt
            omega
        · push_neg at hsplit
          refine ⟨rest.length + 1, t.posts.take (k' - rest.length) ++ P,
            (rest ++ t.posts).drop k' ++ P', by simp [hs], ?_, ?_, ?_⟩
          · dsimp only
            rw [h1, List.take_append_eq_append_take,
              List.take_of_length_le (Nat.le_of_lt hsplit)]
            simp [hs]
          · dsimp only
            rw [h2]
            simp [hs, List.drop_eq_nil_of_le]
          · intro hlt
            simp at hlt

end TestTaskRunner

namespace TestTaskRunner

/-- Helper: whenever the drain loop of `Run()` actually returns, some task
executed during that drain set the quit flag. -/
theorem drain_returned_has_quit (fuel : Nat) :
    ∀ (s : RunnerState) (tr : List Task) (s' : RunnerState),
      s.quit_called = false →
      runDrain fuel s = (tr, RunOutcome.returned s') →
      ∃ t ∈ tr, t.callsQuit = true := by
  induction fuel with
  | zero =>
    intro s tr s' hqc h
    match hs : s.tasks with
    | [] =>
      rw [runDrain_empty 0 s hs] at h
      injection h with h1 h2
      exact RunOutcome.noConfusion h2
    | t :: rest =>
      by_cases hq : (s.quit_called || t.callsQuit) = true
      · rw [runDrain_front_quits 0 s t rest hs hq] at h
        injection h with h1 h2
        refine ⟨t, by rw [← h1]; exact List.mem_singleton_self t, ?_⟩
        rw [hqc] at hq
        simpa using hq
      · rw [Bool.not_eq_true] at hq
        rw [runDrain_front_fuelOut s t rest hs hq] at h
        injection h with h1 h2
        exact RunOutcome.noConfusion h2
  | succ fuel ih =>
    intro s tr s' hqc h
    match hs : s.tasks with
    | [] =>
      rw [runDrain_empty (fuel + 1) s hs] at h
      injection h with h1 h2
      exact RunOutcome.noConfusion h2
    | t :: rest =>
      by_cases hq : (s.quit_called || t.callsQuit) = true
      · rw [runDrain_front_quits (fuel + 1) s t rest hs hq] at h
        injection h with h1 h2
        refine ⟨t, by rw [← h1]; exact List.mem_singleton_self t, ?_⟩
        rw [hqc] at hq
        simpa using hq
      · rw [Bool.not_eq_true] at hq
        rw [runDrain_front_continues fuel s t rest hs hq] at h
        injection h with h1 h2
        have hpair : runDrain fuel ⟨rest ++ t.posts, s.quit_called || t.callsQuit⟩
            = ((runDrain fuel ⟨rest ++ t.posts, s.quit_called || t.callsQuit⟩).1,
               RunOutcome.returned s') := by
          rw [← h2]
        obtain ⟨t', ht', hquit⟩ := ih ⟨rest ++ t.posts, s.quit_called || t.callsQuit⟩
          (runDrain fuel ⟨rest ++ t.posts, s.quit_called || t.callsQuit⟩).1 s' hq hpair
        exact ⟨t', by rw [← h1]; exact List.mem_cons_of_mem t ht', hquit⟩

/-- C1 counterexample: with the batch `[task 1 (calls Quit), task 2]`
queued, `Run()` returns right after task 1 - the trace contains only
task 1, and task 2 of the in-flight batch is still sitting unexecuted in
the queue when `Run()` returns.  This refutes "Run() first finishes running
every Task of that in-flight batch and only then returns". -/
theorem run_quit_returns_mid_drain_cex :
    run 10 ⟨[Task.mk 1 [] true, Task.mk 2 [] false], false⟩
      = ([Task.mk 1 [] true],
         RunOutcome.returned ⟨[Task.mk 2 [] false], true⟩) := rfl

/-- C1 (amended): if a Task running inside `Run()` invokes `Quit()` while
other Tasks remain in the currently-draining batch, `Run()` returns
immediately after that Task finishes (never mid-task), leaving the
remaining Tasks of the batch unexecuted in the queue. -/
theorem run_returns_after_quitting_task (fuel : Nat) (b : Bool) (t : Task)
    (rest : List Task) (hq : t.callsQuit = true) :
    run fuel ⟨t :: rest, b⟩
      = ([t], RunOutcome.returned ⟨rest ++ t.posts, true⟩) := by
  show runDrain fuel ⟨t :: rest, false⟩ = _
  rw [runDrain_front_quits fuel ⟨t :: rest, false⟩ t rest rfl (by simp [hq])]
  simp [hq]

theorem run_returns_after_quitting_task_witness :
    run 3 ⟨[Task.mk 1 [] true, Task.mk 2 [] false], true⟩
      = ([Task.mk 1 [] true],
         RunOutcome.returned ⟨[Task.mk 2 [] false], true⟩) :=
  run_returns_after_quitting_task 3 true (Task.mk 1 [] true)
    [Task.mk 2 [] false] rfl

/-- C3: `Run()` drains the queue in strict FIFO order.  Posting from any
thread is serialized by the queue lock, so "t1 posted before t2" means "t1
precedes t2 in the queue": the executed trace starts with the first `k`
queued Tasks in their queue order; later-posted (re-entrant) Tasks run only
after the entire starting queue has run; the unexecuted Tasks remain
queued, still in order. -/
theorem run_executes_queue_in_fifo_order (fuel : Nat) (q : List Task) (b : Bool) :
    ∃ k P P', k ≤ q.length ∧
      (run fuel ⟨q, b⟩).1 = q.take k ++ P ∧
      ((run fuel ⟨q, b⟩).2.state).tasks = q.drop k ++ P' ∧
      (k < q.length → P = []) :=
  drain_fifo fuel ⟨q, false⟩

/-- C4 counterexample: `PostDelayedTask` is a delayed-task posting
operation, yet invoking it with a 1000-unit delay neither aborts nor
fails - it returns `true`, enqueues the task immediately, and the task is
subsequently run.  This refutes "every invocation of a delayed-task posting
operation fails loudly" and "no task posted with a delay is ever enqueued
or run". -/
theorem post_delayed_task_enqueues_cex :
    PostDelayedTask ⟨[], false⟩ (Task.mk 7 [] false) 1000
      = some (true, ⟨[Task.mk 7 [] false], false⟩) ∧
    runOneTask ⟨[Task.mk 7 [] false], false⟩
      = some (Task.mk 7 [] false, ⟨[], false⟩) :=
  ⟨rfl, rfl⟩

/-- C4 (amended): only `PostNonNestableDelayedTask` fails loudly as a fatal
programming error (nothing is ever enqueued through it);
`PostDelayedTask` ignores its delay argument and enqueues the task
immediately, returning `true`. -/
theorem delayed_post_variants (s : RunnerState) (t : Task) (d : Nat) :
    PostNonNestableDelayedTask s t d = none ∧
    PostDelayedTask s t d = some (true, ⟨s.tasks ++ [t], s.quit_called⟩) :=
  ⟨rfl, rfl⟩

/-- C7: `RunOneTask()` removes and runs exactly the oldest queued Task and
returns; the other queued Tasks remain, untouched and in their original
order (re-entrant posts of the executed task go behind them); on an empty
queue it blocks (`none`) until a task is posted. -/
theorem runOneTask_runs_exactly_oldest (s : RunnerState) (t : Task)
    (rest : List Task) (h : s.tasks = t :: rest) :
    runOneTask s = some (t, ⟨rest ++ t.posts, s.quit_called || t.callsQuit⟩) ∧
    (∀ b : Bool, runOneTask ⟨[], b⟩ = none) := by
  constructor
  · simp [runOneTask, h]
  · intro b
    rfl

theorem runOneTask_runs_exactly_oldest_witness :
    runOneTask ⟨[Task.mk 1 [] false, Task.mk 2 [] false], false⟩
      = some (Task.mk 1 [] false, ⟨[Task.mk 2 [] false], false⟩) ∧
    (∀ b : Bool, runOneTask ⟨[], b⟩ = none) :=
  runOneTask_runs_exactly_oldest ⟨[Task.mk 1 [] false, Task.mk 2 [] false], false⟩
    (Task.mk 1 [] false) [Task.mk 2 [] false] rfl

/-- C9: `Run()` clears the quit flag at entry (line 55), so a `Quit()`
issued before `Run()` begins has no effect on that invocation; and whenever
`Run()` actually returns, some Task executed during that same invocation
called `Quit()`. -/
theorem run_clears_quit_flag_on_entry (fuel : Nat) (q tr : List Task)
    (s' : RunnerState) (b : Bool)
    (h : runDrain fuel ⟨q, false⟩ = (tr, RunOutcome.returned s')) :
    run fuel (Quit ⟨q, b⟩) = run fuel ⟨q, b⟩ ∧
    ∃ t ∈ tr, t.callsQuit = true :=
  ⟨rfl, drain_returned_has_quit fuel ⟨q, false⟩ tr s' rfl h⟩

theorem run_clears_quit_flag_on_entry_witness :
    run 0 (Quit ⟨[Task.mk 1 [] true], false⟩) = run 0 ⟨[Task.mk 1 [] true], false⟩ ∧
    ∃ t ∈ [Task.mk 1 [] true], t.callsQuit = true :=
  run_clears_quit_flag_on_entry 0 [Task.mk 1 [] true] [Task.mk 1 [] true]
    ⟨[], true⟩ false rfl

end TestTaskRunner

/-- C10: with no echo handler set (`echo_handler_` null), `Echo` invokes
the reply callback with the same value, synchronously and exactly once;
with a handler set (also via `set_echo_handler`), `Echo` delegates entirely
to the handler and performs no callback invocation itself. -/
theorem echo_dispatch (v : Int) (h : Nat) :
    Echo none v = [EchoAction.runCallback v] ∧
    Echo (some h) v = [EchoAction.runEchoHandler h v] ∧
    Echo (set_echo_handler none h) v = [EchoAction.runEchoHandler h v] ∧
    (∀ a ∈ Echo (some h) v, ∀ w : Int, a ≠ EchoAction.runCallback w) := by
  refine ⟨rfl, rfl, rfl, ?_⟩
  intro a ha w
  simp [Echo] at ha
  subst ha
  simp

/-- C2: two-hop forwarding for a call issued on the associated endpoint A
under master M.  After issuing, the handler has not fired and the message
sits on M's Executor; after one task on M's Executor (first hop) the
handler has still not fired; after one further task on A's Executor (second
hop) the handler has fired exactly once.  The reply travels the same path:
it is posted to M's Executor first, forwarded by one task there, and
delivered by one task on A's Executor. -/
theorem assoc_call_two_hop_forwarding (v : Int) :
    (issueCall v initPair).handlerFired = [] ∧
    (issueCall v initPair).masterQ = [MasterTask.requestArrived v] ∧
    runOneMasterTask (issueCall v initPair)
      = some ⟨[], [AssocTask.deliverRequest v], [], []⟩ ∧
    runOneAssocTask ⟨[], [AssocTask.deliverRequest v], [], []⟩
      = some ⟨[MasterTask.replyArrived v], [], [v], []⟩ ∧
    runOneMasterTask ⟨[MasterTask.replyArrived v], [], [v], []⟩
      = some ⟨[], [AssocTask.deliverReply v], [v], []⟩ ∧
    runOneAssocTask ⟨[], [AssocTask.deliverReply v], [v], []⟩
      = some ⟨[], [], [v], [v]⟩ :=
  ⟨rfl, rfl, rfl, rfl, rfl, rfl⟩

/-- C6: round-trip correlation.  Issuing `Call(v, cb)` from the associated
side of an echoing peer results in the callback observing exactly `v`,
exactly once, and only after the master-then-associated Executors have each
processed one task for the request and then one task for the reply;
before the final hop the callback has not fired at all. -/
theorem call_reply_round_trip (v : Int) :
    ∃ s2 s3 s4 s5 : PairState,
      runOneMasterTask (issueCall v initPair) = some s2 ∧
      s2.cbFired = [] ∧ s2.handlerFired = [] ∧
      runOneAssocTask s2 = some s3 ∧
      s3.cbFired = [] ∧ s3.handlerFired = [v] ∧
      runOneMasterTask s3 = some s4 ∧
      s4.cbFired = [] ∧
      runOneAssocTask s4 = some s5 ∧
      s5.cbFired = [v] ∧ s5.handlerFired = [v] :=
  ⟨⟨[], [AssocTask.deliverRequest v], [], []⟩,
   ⟨[MasterTask.replyArrived v], [], [v], []⟩,
   ⟨[], [AssocTask.deliverReply v], [v], []⟩,
   ⟨[], [], [v], [v]⟩,
   rfl, rfl, rfl, rfl, rfl, rfl, rfl, rfl, rfl, rfl, rfl⟩

/-- Helper: closing is idempotent on endpoints. -/
theorem closeEp_idem (e : EpState) : closeEp (closeEp e) = closeEp e := by
  by_cases h : e.closed = true <;> simp [closeEp, h]

/-- C5: symmetric teardown.  Closing the master's underlying connection
closes the master and every associated endpoint; after each endpoint's own
Executor drains, its connection-error handler has fired exactly once (and
further drains or repeated closes fire nothing more); no endpoint can have
further Calls dispatched through it. -/
theorem master_close_symmetric_teardown (c : ConnState)
    (hm : c.master = ⟨false, 0, 0⟩) (ha : ∀ e ∈ c.assocs, e = ⟨false, 0, 0⟩) :
    drainEp (closeMasterConnection c).master = ⟨true, 0, 1⟩ ∧
    (∀ e ∈ (closeMasterConnection c).assocs, drainEp e = ⟨true, 0, 1⟩) ∧
    deliverable (closeMasterConnection c).master = false ∧
    (∀ e ∈ (closeMasterConnection c).assocs, deliverable e = false) ∧
    drainEp (drainEp (closeMasterConnection c).master) = ⟨true, 0, 1⟩ ∧
    (∀ e ∈ (closeMasterConnection c).assocs, drainEp (drainEp e) = ⟨true, 0, 1⟩) ∧
    closeMasterConnection (closeMasterConnection c) = closeMasterConnection c := by
  have hmaster : (closeMasterConnection c).master = ⟨true, 1, 0⟩ := by
    simp [closeMasterConnection, hm, closeEp]
  have hassoc : ∀ e ∈ (closeMasterConnection c).assocs, e = ⟨true, 1, 0⟩ := by
    intro e he
    simp only [closeMasterConnection, List.mem_map] at he
    obtain ⟨a, ha', rfl⟩ := he
    rw [ha a ha']
    simp [closeEp]
  refine ⟨?_, ?_, ?_, ?_, ?_, ?_, ?_⟩
  · rw [hmaster]
    rfl
  · intro e he
    rw [hassoc e he]
    rfl
  · rw [hmaster]
    rfl
  · intro e he
    rw [hassoc e he]
    rfl
  · rw [hmaster]
    rfl
  · intro e he
    rw [hassoc e he]
    rfl
  · simp [closeMasterConnection, List.map_map, Function.comp_def, closeEp_idem]

theorem master_close_symmetric_teardown_witness :
    drainEp (closeMasterConnection sampleConn).master = ⟨true, 0, 1⟩ ∧
    (∀ e ∈ (closeMasterConnection sampleConn).assocs, drainEp e = ⟨true, 0, 1⟩) ∧
    deliverable (closeMasterConnection sampleConn).master = false ∧
    (∀ e ∈ (closeMasterConnection sampleConn).assocs, deliverable e = false) ∧
    drainEp (drainEp (closeMasterConnection sampleConn).master) = ⟨true, 0, 1⟩ ∧
    (∀ e ∈ (closeMasterConnection sampleConn).assocs, drainEp (drainEp e) = ⟨true, 0, 1⟩) ∧
    closeMasterConnection (closeMasterConnection sampleConn) = closeMasterConnection sampleConn :=
  master_close_symmetric_teardown sampleConn rfl (by decide)

/-- Helper: modifying one list position leaves every other position as it
was. -/
theorem modifyAt_getElem_ne (f : EpState → EpState) :
    ∀ (l : List EpState) (i j : Nat), j ≠ i →
      (modifyAt l i f)[j]? = l[j]? := by
  intro l
  induction l with
  | nil =>
    intro i j hj
    cases i <;> simp [modifyAt]
  | cons e es ih =>
    intro i j hj
    cases i with
    | zero =>
      cases j with
      | zero => exact absurd rfl hj
      | succ j => simp [modifyAt]
    | succ i =>
      cases j with
      | zero => simp [modifyAt]
      | succ j =>
        simp only [modifyAt, List.getElem?_cons_succ]
        exact ih i j (by omega)

/-- C8: asymmetric teardown.  Closing the associated endpoint at index `i`
leaves the master endpoint entirely untouched - its connection-error
handler does not fire, it stays open and deliverable - and every other
associated endpoint under the master is unchanged, so the master continues
to serve them. -/
theorem close_associated_asymmetric (c : ConnState) (i j : Nat) (hj : j ≠ i) :
    (closeAssociated c i).master = c.master ∧
    deliverable (closeAssociated c i).master = deliverable c.master ∧
    (closeAssociated c i).master.errorFired = c.master.errorFired ∧
    ((closeAssociated c i).assocs)[j]? = (c.assocs)[j]? :=
  ⟨rfl, rfl, rfl, modifyAt_getElem_ne closeEp c.assocs i j hj⟩

theorem close_associated_asymmetric_witness :
    (closeAssociated sampleConn 0).master = sampleConn.master ∧
    deliverable (closeAssociated sampleConn 0).master = deliverable sampleConn.master ∧
    (closeAssociated sampleConn 0).master.errorFired = sampleConn.master.errorFired ∧
    ((closeAssociated sampleConn 0).assocs)[1]? = (sampleConn.assocs)[1]? :=
  close_associated_asymmetric sampleConn 0 1 (by decide)
